import Mathlib

/-!
Verification of the table-filtering, deduplication and pipeline-orchestration
logic of `plaseek` (src/plaseek/plaseek.py), shallowly embedded in Lean.

Modelling conventions:
* A parsed tab-separated file is represented by its list of rows.  Numeric
  cells (e-values, percent identities, scores) are modelled as rationals,
  integer cells as integers, text cells as strings.
* `pandas.read_csv` with an explicit `names=` list returns an empty frame
  (with those columns) on an empty file, so the M8 reader is total on
  well-formed 21-column tables and the empty file maps to the empty row list.
* Fallible operations return `Except String`.
-/

namespace Plaseek

/-- One row of the Foldseek M8 result table.  The 21 columns, in order, are
`query, theader, pident, alnlen, mismatch, gapopen, qstart, qend, tstart,
tend, prob, evalue, bits, qlen, tlen, qaln, taln, tca, tseq, taxid, taxname`
(the `names=` list passed to `pd.read_csv` in `filtering_m8file`). -/
structure M8Row where
  query : String
  theader : String
  pident : ℚ
  alnlen : ℤ
  mismatch : ℤ
  gapopen : ℤ
  qstart : ℤ
  qend : ℤ
  tstart : ℤ
  tend : ℤ
  prob : ℚ
  evalue : ℚ
  bits : ℚ
  qlen : ℤ
  tlen : ℤ
  qaln : String
  taln : String
  tca : String
  tseq : String
  taxid : ℤ
  taxname : String
deriving DecidableEq, Repr

/-- Concrete M8 row used by witness instances: a given e-value, target
sequence and target header, with fixed values in the remaining columns. -/
def sampleRow (ev : ℚ) (tseq theader : String) : M8Row :=
  { query := "query", theader := theader, pident := 100, alnlen := 4,
    mismatch := 0, gapopen := 0, qstart := 1, qend := 4, tstart := 1, tend := 4,
    prob := 1, evalue := ev, bits := 50, qlen := 4, tlen := 4, qaln := tseq,
    taln := tseq, tca := "", tseq := tseq, taxid := 562, taxname := "Escherichia coli" }

/-- Embedding of `filtering_m8file(file, eval_threshold)`: read the 21-column
tab-separated table (modelled as its parsed row list; `read_csv` with the
explicit `names=` list yields an empty frame for an empty file) and keep the
rows whose `evalue` column is strictly below the threshold, in order — the
boolean-mask selection `df[df["evalue"] < eval_threshold]`. -/
def filtering_m8file (fileRows : List M8Row) (eval_threshold : ℚ) : List M8Row :=
  fileRows.filter (fun r => decide (r.evalue < eval_threshold))

/-- Model of a Biopython `SeqRecord` as built by `remove_duplicates`: the
identifier and name are the target header, the sequence is the target
sequence text, and the description embeds pident, e-value and taxonomy. -/
structure SeqRecordM where
  id : String
  name : String
  seq : String
  description : String
deriving DecidableEq, Repr

/-- The `SeqRecord(...)` constructor call inside the `remove_duplicates`
loop, applied to one table row. -/
def toSeqRecord (row : M8Row) : SeqRecordM :=
  { id := row.theader
    name := row.theader
    seq := row.tseq
    description := "pident=" ++ toString row.pident ++ ", evalue=" ++
      toString row.evalue ++ " taxid=" ++ toString row.taxid ++ ", taxname=" ++
      row.taxname ++ ", " }

/-- The `for _, row in hits.iterrows()` loop of `remove_duplicates`, with the
`seen` set of target-sequence strings made explicit (modelled as a list, used
only through membership). -/
def remove_duplicates_loop (seen : List String) : List M8Row → List SeqRecordM
  | [] => []
  | row :: rest =>
    if row.tseq ∈ seen then remove_duplicates_loop seen rest
    else toSeqRecord row :: remove_duplicates_loop (row.tseq :: seen) rest

/-- Embedding of `remove_duplicates(hits)`: single pass over the rows,
emitting a record for each target sequence not seen before. -/
def remove_duplicates (hits : List M8Row) : List SeqRecordM :=
  remove_duplicates_loop [] hits

/-- Row-level counterpart of the dedup loop: the sublist of rows whose target
sequence is new at their position (relative to an initial `seen` set). -/
def dedupFirstRows (seen : List String) : List M8Row → List M8Row
  | [] => []
  | row :: rest =>
    if row.tseq ∈ seen then dedupFirstRows seen rest
    else row :: dedupFirstRows (row.tseq :: seen) rest

/-- Specification-side notion of first-occurrence order: keep each string the
first time it appears and drop all its later occurrences. -/
def firstOccurrences : List String → List String
  | [] => []
  | s :: rest => s :: firstOccurrences (rest.filter (fun b => decide (b ≠ s)))
termination_by l => l.length
decreasing_by simpa using Nat.lt_succ_of_le (List.length_filter_le _ _)

/-- Embedding of `check_binaries_available`.  The filesystem is abstracted by
`exists_on_disk : String → Bool` (the result of `Path(p).exists()`); the three
branches test, in order, the parallel, tblastn and foldseek paths, and raise
`FileNotFoundError` with the exact messages of the source. -/
def check_binaries_available (exists_on_disk : String → Bool)
    (parallel_binary_path tblastn_binary_path foldseek_binary_path : String) :
    Except String Unit :=
  if !exists_on_disk parallel_binary_path then
    .error "foldseek not found. Please set PATH to foldseek."
  else if !exists_on_disk tblastn_binary_path then
    .error "tblastn not found. Please set PATH to tblastn."
  else if !exists_on_disk foldseek_binary_path then
    .error "parallel not found. Please set PATH to parallel."
  else .ok ()

/-- Index of the last occurrence of a character in a character list
(`str.rfind(c)` of Python, with `none` for "not found"). -/
def lastIdxOf (c : Char) : List Char → Option Nat
  | [] => none
  | a :: as =>
    match lastIdxOf c as with
    | some i => some (i + 1)
    | none => if a = c then some 0 else none

/-- Final path component (`pathlib.PurePath.name`): the part after the last
path separator.  Paths with trailing separators are not modelled. -/
def pyName (path : String) : String :=
  match lastIdxOf '/' path.toList with
  | some i => String.mk (path.toList.drop (i + 1))
  | none => path

/-- Embedding of `pathlib.PurePath.suffix`: with `i` the last dot position of
the final component, the extension `name[i:]` when `0 < i < len(name) - 1`,
else the empty string. -/
def pySuffix (path : String) : String :=
  let name := (pyName path).toList
  match lastIdxOf '.' name with
  | some i => if 0 < i ∧ i < name.length - 1 then String.mk (name.drop i) else ""
  | none => ""

/-- Embedding of `pathlib.PurePath.stem`: the final component without its
`pySuffix`. -/
def pyStem (path : String) : String :=
  let name := (pyName path).toList
  match lastIdxOf '.' name with
  | some i =>
    if 0 < i ∧ i < name.length - 1 then String.mk (name.take i) else String.mk name
  | none => String.mk name

/-- Outcome of the suffix dispatch in `main`: whether the structural-search
stage (foldseek) is invoked, the M8 file that the structural filter reads, and
the two derived downstream filenames. -/
structure EntryPlan where
  foldseekInvoked : Bool
  m8file : String
  nodupFasta : String
  tblastnResult : String
deriving DecidableEq, Repr

/-- Embedding of the entry dispatch of `main` (the `input.suffix` cases) and
of the derived intermediate filenames `f"{input.stem}.m8"`,
`f"{input.stem}_nodup.fasta"` and `f"{input.stem}_tblastn.tsv"`. -/
def driverEntry (input : String) : Except String EntryPlan :=
  if pySuffix input = ".pdb" then
    .ok { foldseekInvoked := true
          m8file := pyStem input ++ ".m8"
          nodupFasta := pyStem input ++ "_nodup.fasta"
          tblastnResult := pyStem input ++ "_tblastn.tsv" }
  else if pySuffix input = ".m8" then
    .ok { foldseekInvoked := false
          m8file := input
          nodupFasta := pyStem input ++ "_nodup.fasta"
          tblastnResult := pyStem input ++ "_tblastn.tsv" }
  else
    .error "Invalid input file suffix: the suffix must be .pdb or .m8."

/-- Long-form CLI option strings declared on the `ArgumentParser` in `main`.
The `--version` option uses `action="version"`, whose default is suppressed,
so it contributes no namespace attribute. -/
def declaredFlags : List String :=
  ["--parallel-binary-path", "--tblastn-binary-path", "--foldseek-binary-path",
   "--input", "--foldseek-db-path", "--target-sequence-db-path", "--evalue",
   "--block", "--jobs", "--outfile-path"]

/-- argparse attribute name (dest) of a long option: strip the two leading
dashes and turn the remaining dashes into underscores. -/
def destOf (flag : String) : String :=
  String.mk ((flag.toList.drop 2).map (fun c => if c = '-' then '_' else c))

/-- Attribute names present on the parsed `args` namespace. -/
def declaredDests : List String := declaredFlags.map destOf

/-- Attribute access `getattr(args, attr)` on the parsed namespace: an
attribute that no declared option defines raises `AttributeError`. -/
def nsGetattr (attr : String) : Except String Unit :=
  if attr ∈ declaredDests then .ok () else .error ("AttributeError: " ++ attr)

/-- The binary-path lookup `args.blastdbcmd_binary_path` performed when `main`
reaches the final `run_blastdbcmd` stage. -/
def blastdbcmdBinaryLookup : Except String Unit :=
  nsGetattr "blastdbcmd_binary_path"

/-- Cell of the translated-search (tblastn) table: a numeric value, or `none`
for a missing value (NaN).  Cell contents other than the numeric columns the
code compares are not needed by the claims, so all cells are modelled as
rationals. -/
abbrev Cell := Option ℚ

/-- Tab-separated file with a header row, as `pd.read_csv(..., sep="\t",
header=0)` sees it: either an empty file, or a header line plus body rows. -/
inductive TsvContent where
  | empty : TsvContent
  | withHeader (header : List String) (body : List (List Cell)) : TsvContent
deriving DecidableEq, Repr

/-- Model of `pd.read_csv(infile, sep="\t", header=0)`: an empty file raises
`EmptyDataError`.  Otherwise the expected field count is fixed by the header
and the first data row: when the data rows are wider than the header, their
extra leading cells form an implicit row index, which is not among the
frame's columns.  A later row with more fields than expected raises
`ParserError` (`on_bad_lines` defaults to `"error"`); rows with fewer fields
are padded with NaN. -/
def read_csv_header0 : TsvContent → Except String (List String × List (List Cell))
  | .empty => .error "EmptyDataError: No columns to parse from file"
  | .withHeader header [] => .ok (header, [])
  | .withHeader header (first :: rest) =>
    if rest.all (fun r => r.length ≤ max header.length first.length) then
      .ok (header, (first :: rest).map (fun r =>
        let trimmed := r.drop (first.length - header.length)
        trimmed ++ List.replicate (header.length - trimmed.length) none))
    else .error "ParserError: Error tokenizing data"

/-- First position of a named column in the header (pandas column lookup);
`none` models the `KeyError` raised for an unknown column. -/
def colIdx (header : List String) (colname : String) : Option Nat :=
  match header with
  | [] => none
  | c :: cs => if c = colname then some 0 else (colIdx cs colname).map (fun i => i + 1)

/-- Comparison `cell >= threshold` as pandas evaluates it: NaN compares
false. -/
def cellGe (c : Cell) (t : ℚ) : Bool :=
  match c with
  | some q => decide (t ≤ q)
  | none => false

/-- Ascending comparison on sort keys with NaN placed last (the pandas
default `na_position="last"`). -/
def cellLe (a b : Cell) : Bool :=
  match a, b with
  | some x, some y => decide (x ≤ y)
  | some _, none => true
  | none, _ => false

/-- Insert a row into a sorted row list, comparing the cells in column `j`. -/
def insertByCol (j : Nat) (r : List Cell) : List (List Cell) → List (List Cell)
  | [] => [r]
  | x :: xs =>
    if cellLe (r.getD j none) (x.getD j none) then r :: x :: xs
    else x :: insertByCol j r xs

/-- Sort the rows ascending by the cell in column `j`.  pandas
`DataFrame.sort_values` defaults to `kind="quicksort"`, whose order among
equal keys is not specified; this model uses an insertion sort and no theorem
below relies on the resulting tie order. -/
def sortRowsBy (j : Nat) : List (List Cell) → List (List Cell)
  | [] => []
  | r :: rs => insertByCol j r (sortRowsBy j rs)

/-- Model of `DataFrame.sort_values(by=[col], inplace=...)` against a
receiver frame: the pair is (returned frame, receiver after the call).  With
`inplace=True` the receiver is replaced; with the default `inplace=False` the
receiver is untouched and a new sorted frame is returned. -/
def sort_values_call (inplace : Bool) (j : Nat) (rows : List (List Cell)) :
    List (List Cell) × List (List Cell) :=
  if inplace then (sortRowsBy j rows, sortRowsBy j rows)
  else (sortRowsBy j rows, rows)

/-- Embedding of `filtering_by_pident(infile, pident_threshold, sort_values)`:
read the headered table, select the rows whose `pident` column is at or above
the threshold (`df[df["pident"] >= pident_threshold]`; a `KeyError` if that
column is absent), then `sort_values` ascending by the named column with the
default `inplace=False` (a `KeyError` if the column is absent). -/
def filtering_by_pident (infile : TsvContent) (pident_threshold : ℚ)
    (sort_values : String) : Except String (List String × List (List Cell)) :=
  match read_csv_header0 infile with
  | .error e => .error e
  | .ok (header, rows) =>
    match colIdx header "pident" with
    | none => .error "KeyError: pident"
    | some i =>
      let df_filtered := rows.filter (fun r => cellGe (r.getD i none) pident_threshold)
      match colIdx header sort_values with
      | none => .error ("KeyError: " ++ sort_values)
      | some j => .ok (header, (sort_values_call false j df_filtered).1)

/-- A malformed input file in the modelled sense: empty, or containing after
the first data row a row with more fields than the expected field count (the
maximum of the header width and the first data row's width).  Data rows
uniformly wider than the header are not malformed: pandas parses them using
the leading extra columns as the index. -/
def malformedTsv : TsvContent → Bool
  | .empty => true
  | .withHeader _ [] => false
  | .withHeader header (first :: rest) =>
    rest.any (fun r => decide (max header.length first.length < r.length))

/-- The named sort column is absent from the header-derived columns. -/
def sortColumnAbsent (f : TsvContent) (col : String) : Bool :=
  match f with
  | .empty => true
  | .withHeader header _ => decide (col ∉ header)

/-- Call-state wrapper for `filtering_m8file`: the operations it performs
(reading the file into a fresh frame, boolean-mask selection) write nothing
into the caller's table, so the table after the call is the argument,
returned alongside the result. -/
def filtering_m8file_call (rows : List M8Row) (t : ℚ) :
    List M8Row × List M8Row :=
  (filtering_m8file rows t, rows)

/-- Call-state wrapper for `remove_duplicates`: `iterrows` only reads the
frame, so the table after the call is the argument. -/
def remove_duplicates_call (hits : List M8Row) : List SeqRecordM × List M8Row :=
  (remove_duplicates hits, hits)

/-- Call-state wrapper for `filtering_by_pident`: boolean-mask selection and
`sort_values` with the default `inplace=False` leave the parsed input frame
untouched. -/
def filtering_by_pident_call (f : TsvContent) (t : ℚ) (col : String) :
    Except String (List String × List (List Cell)) × TsvContent :=
  (filtering_by_pident f t col, f)

/-- C2: the e-value filter keeps exactly the rows below the threshold, in the
original order (stated as: the output is a sublist of the input, membership in
the output is membership in the input together with `evalue < T`, and each
surviving row keeps its input multiplicity). -/
theorem filtering_m8file_exact (rows : List M8Row) (t : ℚ) :
    (filtering_m8file rows t).Sublist rows ∧
    (∀ r : M8Row, r ∈ filtering_m8file rows t ↔ (r ∈ rows ∧ r.evalue < t)) ∧
    (∀ r : M8Row, r.evalue < t →
      (filtering_m8file rows t).count r = rows.count r) := by
  refine ⟨List.filter_sublist rows, ?_, ?_⟩
  · intro r
    simp [filtering_m8file, List.mem_filter]
  · intro r hr
    simp only [filtering_m8file]
    exact List.count_filter (by simpa using hr)

/-- Closed instance of `filtering_m8file_exact` on a two-row table with
threshold `1e-10`, e-values `1e-20` and `1e-5` (the spec scenario). -/
theorem filtering_m8file_exact_witness :
    (filtering_m8file [sampleRow (1 / 10 ^ 20) "AAA" "seq1",
        sampleRow (1 / 10 ^ 5) "CCC" "seq2"] (1 / 10 ^ 10)).Sublist
      [sampleRow (1 / 10 ^ 20) "AAA" "seq1", sampleRow (1 / 10 ^ 5) "CCC" "seq2"] ∧
    (∀ r : M8Row,
      r ∈ filtering_m8file [sampleRow (1 / 10 ^ 20) "AAA" "seq1",
          sampleRow (1 / 10 ^ 5) "CCC" "seq2"] (1 / 10 ^ 10) ↔
      (r ∈ [sampleRow (1 / 10 ^ 20) "AAA" "seq1", sampleRow (1 / 10 ^ 5) "CCC" "seq2"] ∧
        r.evalue < 1 / 10 ^ 10)) ∧
    (∀ r : M8Row, r.evalue < 1 / 10 ^ 10 →
      (filtering_m8file [sampleRow (1 / 10 ^ 20) "AAA" "seq1",
          sampleRow (1 / 10 ^ 5) "CCC" "seq2"] (1 / 10 ^ 10)).count r =
        [sampleRow (1 / 10 ^ 20) "AAA" "seq1", sampleRow (1 / 10 ^ 5) "CCC" "seq2"].count r) :=
  filtering_m8file_exact
    [sampleRow (1 / 10 ^ 20) "AAA" "seq1", sampleRow (1 / 10 ^ 5) "CCC" "seq2"]
    (1 / 10 ^ 10)

/-- C6: an empty input table (a file with no rows) filters to the empty table;
no error is possible since `filtering_m8file` is total on parsed tables. -/
theorem filtering_m8file_empty (t : ℚ) : filtering_m8file [] t = [] := rfl

/-- C7: filtering an already-filtered table by the same threshold returns it
unchanged. -/
theorem filtering_m8file_idem (rows : List M8Row) (t : ℚ) :
    filtering_m8file (filtering_m8file rows t) t = filtering_m8file rows t := by
  simp [filtering_m8file, List.filter_filter]

lemma remove_duplicates_loop_eq (seen : List String) (hits : List M8Row) :
    remove_duplicates_loop seen hits = (dedupFirstRows seen hits).map toSeqRecord := by
  induction hits generalizing seen with
  | nil => rfl
  | cons row rest ih =>
    by_cases h : row.tseq ∈ seen
    · simp [remove_duplicates_loop, dedupFirstRows, h, ih]
    · simp [remove_duplicates_loop, dedupFirstRows, h, ih]

lemma dedupFirstRows_tseq_not_seen (seen : List String) (hits : List M8Row) :
    ∀ r ∈ dedupFirstRows seen hits, r.tseq ∉ seen := by
  induction hits generalizing seen with
  | nil => simp [dedupFirstRows]
  | cons row rest ih =>
    by_cases h : row.tseq ∈ seen
    · simpa [dedupFirstRows, h] using ih seen
    · intro r hr
      simp only [dedupFirstRows, if_neg h, List.mem_cons] at hr
      rcases hr with rfl | hr
      · exact h
      · exact fun hs => ih (row.tseq :: seen) r hr (List.mem_cons_of_mem _ hs)

lemma dedupFirstRows_length_le (seen : List String) (hits : List M8Row) :
    (dedupFirstRows seen hits).length ≤ hits.length := by
  induction hits generalizing seen with
  | nil => simp [dedupFirstRows]
  | cons row rest ih =>
    by_cases h : row.tseq ∈ seen
    · simp only [dedupFirstRows, if_pos h, List.length_cons]
      exact Nat.le_succ_of_le (ih seen)
    · simp only [dedupFirstRows, if_neg h, List.length_cons]
      exact Nat.succ_le_succ (ih (row.tseq :: seen))

lemma dedupFirstRows_map_nodup (seen : List String) (hits : List M8Row) :
    ((dedupFirstRows seen hits).map M8Row.tseq).Nodup := by
  induction hits generalizing seen with
  | nil => simp [dedupFirstRows]
  | cons row rest ih =>
    by_cases h : row.tseq ∈ seen
    · simpa [dedupFirstRows, h] using ih seen
    · simp only [dedupFirstRows, if_neg h, List.map_cons, List.nodup_cons]
      refine ⟨?_, ih (row.tseq :: seen)⟩
      intro hmem
      rcases List.mem_map.mp hmem with ⟨r, hr, hrt⟩
      exact dedupFirstRows_tseq_not_seen _ _ r hr
        (by rw [hrt]; exact List.mem_cons_self _ _)

lemma dedupFirstRows_find (seen : List String) (hits : List M8Row) :
    ∀ r ∈ dedupFirstRows seen hits,
      hits.find? (fun x => decide (x.tseq = r.tseq)) = some r := by
  induction hits generalizing seen with
  | nil => simp [dedupFirstRows]
  | cons row rest ih =>
    intro r hr
    by_cases h : row.tseq ∈ seen
    · simp only [dedupFirstRows, if_pos h] at hr
      have hne : row.tseq ≠ r.tseq :=
        fun he => dedupFirstRows_tseq_not_seen seen rest r hr (he ▸ h)
      rw [List.find?_cons_of_neg _ (by simpa using hne)]
      exact ih seen r hr
    · simp only [dedupFirstRows, if_neg h, List.mem_cons] at hr
      rcases hr with rfl | hr
      · rw [List.find?_cons_of_pos _ (by simp)]
      · have hne : row.tseq ≠ r.tseq := fun he =>
          dedupFirstRows_tseq_not_seen (row.tseq :: seen) rest r hr
            (he ▸ List.mem_cons_self _ _)
        rw [List.find?_cons_of_neg _ (by simpa using hne)]
        exact ih (row.tseq :: seen) r hr

lemma dedupFirstRows_map_firstOcc (seen : List String) (hits : List M8Row) :
    (dedupFirstRows seen hits).map M8Row.tseq =
      firstOccurrences ((hits.map M8Row.tseq).filter (fun s => decide (s ∉ seen))) := by
  induction hits generalizing seen with
  | nil => simp [dedupFirstRows, firstOccurrences]
  | cons row rest ih =>
    by_cases h : row.tseq ∈ seen
    · simpa [dedupFirstRows, h, List.filter_cons] using ih seen
    · simp only [dedupFirstRows, if_neg h, List.map_cons, List.filter_cons]
      have hd : decide (row.tseq ∉ seen) = true := by simpa using h
      rw [hd]
      simp only [if_pos trivial]
      rw [firstOccurrences]
      congr 1
      rw [ih (row.tseq :: seen), List.filter_filter]
      refine congrArg firstOccurrences (List.filter_congr ?_)
      intro a _
      by_cases h1 : a ∈ seen <;> by_cases h2 : a = row.tseq <;>
        simp [h1, h2, List.mem_cons]

/-- C3: deduplication emits at most one record per input row; the emitted
sequences are pairwise distinct; they are listed in first-occurrence order of
the input target sequences; and each emitted record is the `SeqRecord` built
from the first input row (in table order) carrying its sequence. -/
theorem remove_duplicates_spec (hits : List M8Row) :
    (remove_duplicates hits).length ≤ hits.length ∧
    ((remove_duplicates hits).map SeqRecordM.seq).Nodup ∧
    (remove_duplicates hits).map SeqRecordM.seq =
      firstOccurrences (hits.map M8Row.tseq) ∧
    (∀ rec ∈ remove_duplicates hits,
      ∃ row, hits.find? (fun x => decide (x.tseq = rec.seq)) = some row ∧
        rec = toSeqRecord row) := by
  have hbase : remove_duplicates hits = (dedupFirstRows [] hits).map toSeqRecord :=
    remove_duplicates_loop_eq [] hits
  have hseq : (remove_duplicates hits).map SeqRecordM.seq =
      (dedupFirstRows [] hits).map M8Row.tseq := by
    rw [hbase, List.map_map]
    rfl
  refine ⟨?_, ?_, ?_, ?_⟩
  · rw [hbase, List.length_map]
    exact dedupFirstRows_length_le [] hits
  · rw [hseq]
    exact dedupFirstRows_map_nodup [] hits
  · rw [hseq, dedupFirstRows_map_firstOcc [] hits]
    congr 1
    simp
  · intro rec hrec
    rw [hbase] at hrec
    rcases List.mem_map.mp hrec with ⟨row, hrow, hrowe⟩
    refine ⟨row, ?_, hrowe.symm⟩
    have hrseq : rec.seq = row.tseq := by rw [← hrowe]; simp [toSeqRecord]
    rw [hrseq]
    exact dedupFirstRows_find [] hits row hrow

/-- Closed instance of `remove_duplicates_spec` on the spec scenario: two
rows with identical target sequence "ATGC" and headers "seq1" and "seq2". -/
theorem remove_duplicates_spec_witness :
    (remove_duplicates [sampleRow 0 "ATGC" "seq1", sampleRow 0 "ATGC" "seq2"]).length ≤
      [sampleRow 0 "ATGC" "seq1", sampleRow 0 "ATGC" "seq2"].length ∧
    ((remove_duplicates [sampleRow 0 "ATGC" "seq1", sampleRow 0 "ATGC" "seq2"]).map
      SeqRecordM.seq).Nodup ∧
    (remove_duplicates [sampleRow 0 "ATGC" "seq1", sampleRow 0 "ATGC" "seq2"]).map
      SeqRecordM.seq =
      firstOccurrences ([sampleRow 0 "ATGC" "seq1", sampleRow 0 "ATGC" "seq2"].map
        M8Row.tseq) ∧
    (∀ rec ∈ remove_duplicates [sampleRow 0 "ATGC" "seq1", sampleRow 0 "ATGC" "seq2"],
      ∃ row, [sampleRow 0 "ATGC" "seq1", sampleRow 0 "ATGC" "seq2"].find?
          (fun x => decide (x.tseq = rec.seq)) = some row ∧
        rec = toSeqRecord row) :=
  remove_duplicates_spec [sampleRow 0 "ATGC" "seq1", sampleRow 0 "ATGC" "seq2"]

/-- C1 (failing input): with only the parallel-dispatch binary missing, the
validator raises a binary-not-found error whose message names foldseek, and
with only the foldseek binary missing the message names parallel — the
message does not identify the binary whose existence check failed. -/
theorem check_binaries_available_swapped_messages :
    check_binaries_available
      (fun p => p == "/usr/bin/tblastn" || p == "/usr/bin/foldseek")
      "/usr/bin/parallel" "/usr/bin/tblastn" "/usr/bin/foldseek" =
      .error "foldseek not found. Please set PATH to foldseek." ∧
    check_binaries_available
      (fun p => p == "/usr/bin/parallel" || p == "/usr/bin/tblastn")
      "/usr/bin/parallel" "/usr/bin/tblastn" "/usr/bin/foldseek" =
      .error "parallel not found. Please set PATH to parallel." :=
  ⟨rfl, rfl⟩

/-- C5: the input suffix selects the entry point — `.pdb` runs foldseek into
`<stem>.m8`, `.m8` skips foldseek and filters the input file itself, any other
suffix is rejected with the unsupported-input error and no stage plan is
produced; the downstream filenames are `<stem>_nodup.fasta` and
`<stem>_tblastn.tsv` in every non-error case. -/
theorem driverEntry_cases (input : String) :
    (pySuffix input = ".pdb" →
      driverEntry input = .ok
        { foldseekInvoked := true
          m8file := pyStem input ++ ".m8"
          nodupFasta := pyStem input ++ "_nodup.fasta"
          tblastnResult := pyStem input ++ "_tblastn.tsv" }) ∧
    (pySuffix input = ".m8" →
      driverEntry input = .ok
        { foldseekInvoked := false
          m8file := input
          nodupFasta := pyStem input ++ "_nodup.fasta"
          tblastnResult := pyStem input ++ "_tblastn.tsv" }) ∧
    (pySuffix input ≠ ".pdb" ∧ pySuffix input ≠ ".m8" →
      driverEntry input =
        .error "Invalid input file suffix: the suffix must be .pdb or .m8.") := by
  refine ⟨fun h => ?_, fun h => ?_, fun h => ?_⟩
  · simp [driverEntry, h]
  · simp [driverEntry, h]
  · simp [driverEntry, h.1, h.2]

/-- Closed instance of `driverEntry_cases` at inputs `sample.pdb`,
`sample.m8` and `sample.txt` (the spec scenarios). -/
theorem driverEntry_cases_witness :
    driverEntry "sample.pdb" = .ok
      { foldseekInvoked := true
        m8file := pyStem "sample.pdb" ++ ".m8"
        nodupFasta := pyStem "sample.pdb" ++ "_nodup.fasta"
        tblastnResult := pyStem "sample.pdb" ++ "_tblastn.tsv" } ∧
    driverEntry "sample.m8" = .ok
      { foldseekInvoked := false
        m8file := "sample.m8"
        nodupFasta := pyStem "sample.m8" ++ "_nodup.fasta"
        tblastnResult := pyStem "sample.m8" ++ "_tblastn.tsv" } ∧
    driverEntry "sample.txt" =
      .error "Invalid input file suffix: the suffix must be .pdb or .m8." :=
  ⟨(driverEntry_cases "sample.pdb").1 (by decide),
   (driverEntry_cases "sample.m8").2.1 (by decide),
   (driverEntry_cases "sample.txt").2.2 (by decide)⟩

/-- C9: the attribute `blastdbcmd_binary_path` read by the final
`run_blastdbcmd` stage is not among the attributes any declared CLI option
defines, so the lookup raises `AttributeError` whenever that stage is
reached. -/
theorem blastdbcmd_binary_path_undeclared :
    "blastdbcmd_binary_path" ∉ declaredDests ∧
    blastdbcmdBinaryLookup =
      .error ("AttributeError: " ++ "blastdbcmd_binary_path") := by
  refine ⟨by decide, ?_⟩
  rfl

lemma colIdx_eq_none_of_not_mem (header : List String) (col : String)
    (h : col ∉ header) : colIdx header col = none := by
  induction header with
  | nil => rfl
  | cons c cs ih =>
    have hne : c ≠ col := fun he => h (he ▸ List.mem_cons_self _ _)
    have hcs : col ∉ cs := fun hm => h (List.mem_cons_of_mem _ hm)
    simp [colIdx, hne, ih hcs]

lemma read_csv_header0_error_of_malformed (header : List String)
    (body : List (List Cell))
    (hm : malformedTsv (TsvContent.withHeader header body) = true) :
    ∃ e, read_csv_header0 (TsvContent.withHeader header body) = Except.error e := by
  cases body with
  | nil => simp [malformedTsv] at hm
  | cons first rest =>
    simp only [malformedTsv, List.any_eq_true, decide_eq_true_eq] at hm
    rcases hm with ⟨r, hr, hlt⟩
    have hall : ¬(rest.all (fun r => r.length ≤ max header.length first.length)) = true := by
      intro hall
      have hle := List.all_eq_true.mp hall r hr
      simp only [decide_eq_true_eq] at hle
      omega
    exact ⟨"ParserError: Error tokenizing data", by
      simp only [read_csv_header0, if_neg hall]⟩

lemma read_csv_header0_fst (header : List String) (body : List (List Cell))
    (p : List String × List (List Cell))
    (hok : read_csv_header0 (TsvContent.withHeader header body) = Except.ok p) :
    p.1 = header := by
  cases body with
  | nil =>
    simp only [read_csv_header0, Except.ok.injEq] at hok
    rw [← hok]
  | cons first rest =>
    by_cases hall : (rest.all (fun r => r.length ≤ max header.length first.length)) = true
    · simp only [read_csv_header0, if_pos hall, Except.ok.injEq] at hok
      rw [← hok]
    · simp only [read_csv_header0, if_neg hall] at hok
      exact Except.noConfusion hok

/-- C8: on a malformed file (empty, or a later body row wider than the field
count expected from the header and the first data row), or when the named
sort column is absent from the header-derived columns, `filtering_by_pident`
raises an error and returns no table. -/
theorem filtering_by_pident_error (f : TsvContent) (t : ℚ) (col : String)
    (h : malformedTsv f = true ∨ sortColumnAbsent f col = true) :
    ∃ e, filtering_by_pident f t col = Except.error e := by
  cases f with
  | empty => exact ⟨"EmptyDataError: No columns to parse from file", rfl⟩
  | withHeader header body =>
    rcases h with hm | habs
    · rcases read_csv_header0_error_of_malformed header body hm with ⟨e, he⟩
      exact ⟨e, by simp [filtering_by_pident, he]⟩
    · have hcol : col ∉ header := by simpa [sortColumnAbsent] using habs
      rcases hread : read_csv_header0 (TsvContent.withHeader header body) with e | p
      · exact ⟨e, by simp [filtering_by_pident, hread]⟩
      · have hp : p.1 = header := read_csv_header0_fst header body p hread
        cases hpid : colIdx p.1 "pident" with
        | none =>
          exact ⟨"KeyError: pident", by simp [filtering_by_pident, hread, hpid]⟩
        | some i =>
          exact ⟨"KeyError: " ++ col, by
            rw [hp] at hpid
            simp [filtering_by_pident, hread, hpid, hp,
              colIdx_eq_none_of_not_mem header col hcol]⟩

/-- Closed instance of `filtering_by_pident_error`: a well-formed one-column
`pident` table sorted by the absent default column `saccver` errors out. -/
theorem filtering_by_pident_error_witness :
    ∃ e, filtering_by_pident (TsvContent.withHeader ["pident"] [[some 99]]) 98
      "saccver" = Except.error e :=
  filtering_by_pident_error (TsvContent.withHeader ["pident"] [[some 99]]) 98
    "saccver" (Or.inr (by decide))

/-- C10: the three table operations are read-only on their table inputs — in
each call-state wrapper the table after the call is the argument table, and
`sort_values` with the `inplace=False` default used by the source leaves its
receiver unchanged. -/
theorem table_inputs_read_only (rows : List M8Row) (t : ℚ) (hits : List M8Row)
    (f : TsvContent) (p : ℚ) (col : String) (j : Nat) (df : List (List Cell)) :
    (filtering_m8file_call rows t).2 = rows ∧
    (remove_duplicates_call hits).2 = hits ∧
    (filtering_by_pident_call f p col).2 = f ∧
    (sort_values_call false j df).2 = df :=
  ⟨rfl, rfl, rfl, rfl⟩

end Plaseek
